import Mathlib

/-!
Shallow embedding of the QCA certificate module (`qca_cert.h`): the
certificate/CRL data model, the `Certificate.validate` chain-validation
engine, `CertificateAuthority` issuance, `CertificateCollection` union,
`matchesHostname` and `CertificateRequest` construction.

The repository ships only the header `src/include/QtCrypto/qca_cert.h`
(declarations); the implementations live outside `src/`, so every
behavioral definition below is modelled from the specification, as its
doc comment records.  Enumerations and field layouts follow the header.
-/

namespace QCA

/-- Certificate Request Format, from the header enum. -/
inductive CertificateRequestFormat where
  | PKCS10
  | SPKAC
deriving DecidableEq

/-- Certificate information types, from the header enum. -/
inductive CertificateInfoType where
  | CommonName
  | Email
  | Organization
  | OrganizationalUnit
  | Locality
  | State
  | Country
  | URI
  | DNS
  | IPAddress
  | XMPP
deriving DecidableEq

/-- Certificate constraints, from the header enum (basic and extended). -/
inductive ConstraintType where
  | DigitalSignature
  | NonRepudiation
  | KeyEncipherment
  | DataEncipherment
  | KeyAgreement
  | KeyCertificateSign
  | CRLSign
  | EncipherOnly
  | DecipherOnly
  | ServerAuth
  | ClientAuth
  | CodeSigning
  | EmailProtection
  | IPSecEndSystem
  | IPSecTunnel
  | IPSecUser
  | TimeStamping
  | OCSPSigning
deriving DecidableEq

/-- Intended usage of a certificate, from the header enum. -/
inductive UsageMode where
  | UsageAny
  | UsageTLSServer
  | UsageTLSClient
  | UsageCodeSigning
  | UsageEmailProtection
  | UsageTimeStamping
  | UsageCRLSigning
deriving DecidableEq

/-- The validity (or otherwise) of a certificate, from the header enum. -/
inductive Validity where
  | ValidityGood
  | ErrorRejected
  | ErrorUntrusted
  | ErrorSignatureFailed
  | ErrorInvalidCA
  | ErrorInvalidPurpose
  | ErrorSelfSigned
  | ErrorRevoked
  | ErrorPathLengthExceeded
  | ErrorExpired
  | ErrorExpiredCA
  | ErrorValidityUnknown
deriving DecidableEq

/-- `CertificateInfo`: ordered multi-valued mapping of attribute type to
string (the header's `QMultiMap<CertificateInfoType, QString>`). -/
abbrev CertificateInfo := List (CertificateInfoType × String)

/-- Modelled from the spec: dates are instants on a discrete timeline;
the implementation (`QDateTime`, outside `src/`) is abstracted as an
integer timestamp. -/
abbrev Instant := Int

/-- Modelled from the spec: public keys are opaque values used only for
identity and signature-verification checks (the implementation of
`PublicKey` is outside `src/`), so a key is abstracted as a `Nat`
identifier. -/
abbrev KeyId := Nat

/-- X.509 certificate value: fields follow the header's accessor list
(`notValidBefore` .. `issuerKeyId`).  Modelled from the spec: the
signature is abstracted as `signedBy`, the key that produced it, so that
"the issuer's public key verifies the child's signature" becomes
`child.signedBy = issuer.subjectPublicKey`. -/
structure Certificate where
  notValidBefore : Instant
  notValidAfter : Instant
  subjectInfo : CertificateInfo
  issuerInfo : CertificateInfo
  constraints : List ConstraintType
  policies : List String
  serialNumber : Int
  subjectPublicKey : KeyId
  isCA : Bool
  pathLimit : Nat
  signedBy : KeyId
  subjectKeyId : Option (List Nat)
  issuerKeyId : Option (List Nat)
deriving DecidableEq

/-- Modelled from the spec: a certificate is self-signed when its issuer
info equals its subject info and its signature verifies against its own
public key (`Certificate::isSelfSigned` is implemented outside `src/`). -/
def SelfSigned (c : Certificate) : Prop :=
  c.issuerInfo = c.subjectInfo ∧ c.signedBy = c.subjectPublicKey

instance (c : Certificate) : Decidable (SelfSigned c) := by
  unfold SelfSigned
  infer_instance

/-- Boolean form of `SelfSigned`, the header's `Certificate::isSelfSigned`. -/
def Certificate.isSelfSigned (c : Certificate) : Bool :=
  decide (SelfSigned c)

/-- Reason a certificate was revoked, from the header enum
`CRLEntry::Reason`. -/
inductive Reason where
  | Unspecified
  | KeyCompromise
  | CACompromise
  | AffiliationChanged
  | Superceded
  | CessationOfOperation
  | CertificateHold
  | RemoveFromCRL
  | PrivilegeWithdrawn
  | AACompromise
deriving DecidableEq

/-- Part of a CRL representing a single revoked certificate, fields from
the header (`_serial`, `_time`, `_reason`). -/
structure CRLEntry where
  serialNumber : Int
  time : Instant
  reason : Reason
deriving DecidableEq

/-- Certificate Revocation List value: fields follow the header's
accessor list.  Modelled from the spec: the signature is abstracted as
`signedBy`. -/
structure CRL where
  issuerInfo : CertificateInfo
  number : Int
  thisUpdate : Instant
  nextUpdate : Instant
  revoked : List CRLEntry
  signedBy : KeyId
  issuerKeyId : Option (List Nat)
deriving DecidableEq

/-- Bundle of certificates and CRLs (`CertificateCollection`): an
unordered multiset of each, represented by lists. -/
structure CertificateCollection where
  certs : List Certificate
  crls : List CRL
deriving DecidableEq

/-- The certificates in a collection (`CertificateCollection::certificates`). -/
def CertificateCollection.certificates (col : CertificateCollection) : List Certificate :=
  col.certs

/-- Append a certificate (`CertificateCollection::addCertificate`). -/
def CertificateCollection.addCertificate (col : CertificateCollection) (c : Certificate) :
    CertificateCollection :=
  { col with certs := col.certs ++ [c] }

/-- Append a CRL (`CertificateCollection::addCRL`). -/
def CertificateCollection.addCRL (col : CertificateCollection) (crl : CRL) :
    CertificateCollection :=
  { col with crls := col.crls ++ [crl] }

/-- Modelled from the spec: `CertificateCollection::append` /
`operator+` merge two collections by concatenating both member lists
(append, no dedup); the implementation is outside `src/`. -/
def CertificateCollection.append (a b : CertificateCollection) : CertificateCollection :=
  { certs := a.certs ++ b.certs, crls := a.crls ++ b.crls }

/-- Modelled from the spec: an issuer candidate for `c` is a pool
certificate whose subject info matches `c`'s issuer info and, where key
identifiers are present on both sides, whose subject key id matches
`c`'s issuer key id (validation step 1; implementation outside `src/`). -/
def issuerCandidates (pool : List Certificate) (c : Certificate) : List Certificate :=
  pool.filter fun p =>
    decide (p.subjectInfo = c.issuerInfo) &&
      match c.issuerKeyId, p.subjectKeyId with
      | some ik, some sk => decide (ik = sk)
      | _, _ => true

/-- Modelled from the spec: a candidate whose subject key id exactly
matches the child's issuer key id field (the step-1 tie-break). -/
def keyIdExact (c p : Certificate) : Bool :=
  match c.issuerKeyId, p.subjectKeyId with
  | some ik, some sk => decide (ik = sk)
  | _, _ => false

/-- Modelled from the spec: pick the issuer among candidates of one
trust tier, preferring an exact key-id match over a name-only match. -/
def pickFrom (c : Certificate) (cands : List Certificate) : Option Certificate :=
  match cands.find? (keyIdExact c) with
  | some p => some p
  | none => cands.head?

/-- Modelled from the spec: locate the issuer of `c` in the union of
the trusted and untrusted pools, preferring a candidate present in
trusted over one in untrusted, and within a tier an exact key-id match
over a name-only match (validation step 1 with its tie-break rule). -/
def pickIssuer (pt pu : List Certificate) (c : Certificate) : Option Certificate :=
  match pickFrom c (issuerCandidates pt c) with
  | some p => some p
  | none => pickFrom c (issuerCandidates pu c)

/-- Modelled from the spec: chain construction (validation step 1) —
starting from a certificate, repeatedly locate an issuer in the pools
and append it, stopping at a self-signed certificate or when no issuer
is found; `fuel` bounds the recursion by the pool size. -/
def buildChain (pt pu : List Certificate) : Nat → Certificate → List Certificate
  | 0, c => [c]
  | fuel + 1, c =>
    if SelfSigned c then [c]
    else
      match pickIssuer pt pu c with
      | none => [c]
      | some p => c :: buildChain pt pu fuel p

/-- The chain `Certificate.validate` builds for a certificate from the
trusted and untrusted collections (index 0 is the certificate itself). -/
def chainOf (trusted untrusted : CertificateCollection) (cert : Certificate) :
    List Certificate :=
  buildChain trusted.certs untrusted.certs
    (trusted.certs.length + untrusted.certs.length) cert

/-- A certificate's validity window contains the instant `now`
(`notValidBefore() <= now <= notValidAfter()`). -/
def InWindow (now : Instant) (c : Certificate) : Prop :=
  c.notValidBefore ≤ now ∧ now ≤ c.notValidAfter

instance (now : Instant) (c : Certificate) : Decidable (InWindow now c) := by
  unfold InWindow
  infer_instance

/-- Modelled from the spec: each link (child, issuer) of the chain
verifies — the issuer's public key verifies the child's signature
(validation step 3). -/
def linksVerify : List Certificate → Bool
  | c :: p :: rest => decide (c.signedBy = p.subjectPublicKey) && linksVerify (p :: rest)
  | _ => true

/-- Modelled from the spec: the path-length rule (validation step 6) —
counting intermediate CAs from the leaf toward the root, the CA at chain
position `i + 1` has `i` certificates below it beyond the leaf, and its
declared `pathLimit` must not be exceeded. -/
def PathLenOk (chain : List Certificate) : Prop :=
  ∀ i, (h : i < chain.tail.length) → i ≤ (chain.tail.get ⟨i, h⟩).pathLimit

instance (chain : List Certificate) : Decidable (PathLenOk chain) := by
  unfold PathLenOk
  exact Nat.decidableBallLT _ _

/-- Modelled from the spec: the revocation condition (validation step
8) — some CRL among the supplied ones has an issuer matching a chain
certificate and lists the serial number of a chain certificate among
its revoked entries. -/
def Revokes (crls : List CRL) (chain : List Certificate) : Prop :=
  ∃ crl ∈ crls, (∃ c ∈ chain, crl.issuerInfo = c.subjectInfo) ∧
    ∃ c ∈ chain, ∃ e ∈ crl.revoked, e.serialNumber = c.serialNumber

instance (crls : List CRL) (chain : List Certificate) : Decidable (Revokes crls chain) := by
  unfold Revokes
  infer_instance

/-- Modelled from the spec: the constraint tag a usage mode requires of
the leaf certificate (validation step 9), e.g. `UsageTLSServer`
requires `ServerAuth`; `UsageAny` requires nothing. -/
def usageConstraint : UsageMode → Option ConstraintType
  | .UsageAny => none
  | .UsageTLSServer => some .ServerAuth
  | .UsageTLSClient => some .ClientAuth
  | .UsageCodeSigning => some .CodeSigning
  | .UsageEmailProtection => some .EmailProtection
  | .UsageTimeStamping => some .TimeStamping
  | .UsageCRLSigning => some .CRLSign

/-- Validation step 1: if no issuer can be found and the certificate is
not self-signed, the issuer chain is incomplete (`ErrorInvalidCA`). -/
def step1 (cert : Certificate) (pt pu : List Certificate) : Option Validity :=
  if ¬ SelfSigned cert ∧ pickIssuer pt pu cert = none then
    some Validity.ErrorInvalidCA
  else none

/-- Validation step 2: a self-signed certificate not present in the
trusted collection yields `ErrorSelfSigned`. -/
def step2 (cert : Certificate) (pt : List Certificate) : Option Validity :=
  if SelfSigned cert ∧ cert ∉ pt then some Validity.ErrorSelfSigned else none

/-- Validation step 3: every link of the built chain must verify. -/
def step3 (chain : List Certificate) : Option Validity :=
  if linksVerify chain then none else some Validity.ErrorSignatureFailed

/-- Validation step 4: the top of the built chain must be present in the
trusted collection. -/
def step4 (cert : Certificate) (chain : List Certificate) (pt : List Certificate) :
    Option Validity :=
  if chain.getLastD cert ∈ pt then none else some Validity.ErrorUntrusted

/-- Validation step 5: every non-leaf certificate of the chain must have
`isCA() == true`. -/
def step5 (chain : List Certificate) : Option Validity :=
  if ∀ c ∈ chain.tail, c.isCA = true then none else some Validity.ErrorInvalidCA

/-- Validation step 6: the path-length rule. -/
def step6 (chain : List Certificate) : Option Validity :=
  if PathLenOk chain then none else some Validity.ErrorPathLengthExceeded

/-- Validation step 7 (leaf): a leaf outside its validity window yields
`ErrorExpired`. -/
def step7a (now : Instant) (cert : Certificate) : Option Validity :=
  if InWindow now cert then none else some Validity.ErrorExpired

/-- Validation step 7 (ancestors): an ancestor (CA) outside its validity
window yields `ErrorExpiredCA`. -/
def step7b (now : Instant) (chain : List Certificate) : Option Validity :=
  if ∀ c ∈ chain.tail, InWindow now c then none else some Validity.ErrorExpiredCA

/-- Validation step 8: the revocation check. -/
def step8 (crls : List CRL) (chain : List Certificate) : Option Validity :=
  if Revokes crls chain then some Validity.ErrorRevoked else none

/-- Validation step 9: the usage/purpose check on the leaf. -/
def step9 (u : UsageMode) (cert : Certificate) : Option Validity :=
  match usageConstraint u with
  | none => none
  | some k => if k ∈ cert.constraints then none else some Validity.ErrorInvalidPurpose

/-- The ordered list of checks run by `Certificate.validate`. -/
def stepsOf (cert : Certificate) (trusted untrusted : CertificateCollection)
    (u : UsageMode) (now : Instant) : List (Option Validity) :=
  [step1 cert trusted.certs untrusted.certs,
   step2 cert trusted.certs,
   step3 (chainOf trusted untrusted cert),
   step4 cert (chainOf trusted untrusted cert) trusted.certs,
   step5 (chainOf trusted untrusted cert),
   step6 (chainOf trusted untrusted cert),
   step7a now cert,
   step7b now (chainOf trusted untrusted cert),
   step8 (trusted.crls ++ untrusted.crls) (chainOf trusted untrusted cert),
   step9 u cert]

/-- First applicable error of an ordered check list. -/
def firstErr : List (Option Validity) → Option Validity
  | [] => none
  | some v :: _ => some v
  | none :: rest => firstErr rest

/-- Modelled from the spec: `Certificate::validate` (implementation
outside `src/`) — the ordered, first-match-wins validation algorithm of
§4.4: chain construction, self-signed detection, signature chain,
trust anchor, CA flags, path length, validity windows, revocation and
usage, returning `ValidityGood` when every check passes.  The wall
clock is passed explicitly as `now`. -/
def Certificate.validate (cert : Certificate) (trusted untrusted : CertificateCollection)
    (u : UsageMode) (now : Instant) : Validity :=
  (firstErr (stepsOf cert trusted untrusted u now)).getD Validity.ValidityGood

/-- The string values a `CertificateInfo` holds for one attribute type,
in order. -/
def infoValues (info : CertificateInfo) (t : CertificateInfoType) : List String :=
  (info.filter fun p => decide (p.1 = t)).map fun p => p.2

/-- Split a hostname at its first dot into (first label, remainder);
`none` when the name has no dot. -/
def splitFirstLabel : List Char → Option (List Char × List Char)
  | [] => none
  | c :: rest =>
    if c = '.' then some ([], rest)
    else
      match splitFirstLabel rest with
      | some (l, r) => some (c :: l, r)
      | none => none

/-- Modelled from the spec: one reference name matches a host when they
are equal, or when the reference begins with a single wildcard label
`*.` and the host is one non-empty dot-free label followed by the rest
of the reference (so `*.example.com` matches `mail.example.com` but not
`a.b.example.com` or `example.com`).  Both sides are already
lower-cased. -/
def nameMatches (pat host : List Char) : Bool :=
  match pat with
  | '*' :: '.' :: suffix =>
    match splitFirstLabel host with
    | some (label, rest) => decide (label ≠ []) && decide (rest = suffix)
    | none => false
  | _ => decide (pat = host)

/-- Lower-case a string to a character list (ASCII case folding). -/
def lowerChars (s : String) : List Char :=
  s.data.map Char.toLower

/-- Modelled from the spec: `Certificate::matchesHostname`
(implementation outside `src/`) — checks the subject common name and
DNS subject-alternative-name entries for a case-insensitive match,
honoring a single leading wildcard label. -/
def Certificate.matchesHostname (c : Certificate) (host : String) : Bool :=
  (infoValues c.subjectInfo CertificateInfoType.CommonName ++
      infoValues c.subjectInfo CertificateInfoType.DNS).any
    fun p => nameMatches (lowerChars p) (lowerChars host)

/-- Modelled from the spec: construction/format error taxonomy of §7
(the implementation is outside `src/`). -/
inductive CertError where
  | FormatError
  | SigningError
deriving DecidableEq

/-- Modelled from the spec: a private key is abstracted to its public
counterpart plus whether it can produce a signature (§4.2's
`SigningError` condition); the implementation of `PrivateKey` is
outside `src/`. -/
structure PrivateKey where
  pubKey : KeyId
  canSign : Bool
deriving DecidableEq

/-- `CertificateOptions`: the mutable builder's fields, following the
header's accessor list. -/
structure CertificateOptions where
  format : CertificateRequestFormat
  challenge : String
  info : CertificateInfo
  constraints : List ConstraintType
  policies : List String
  isCA : Bool
  pathLimit : Nat
  serialNumber : Int
  notValidBefore : Instant
  notValidAfter : Instant
deriving DecidableEq

/-- Modelled from the spec: `CertificateOptions::isValid` — whether the
minimum fields for the chosen format are present (implementation
outside `src/`): a challenge for SPKAC, subject info for PKCS10. -/
def CertificateOptions.isValid (opts : CertificateOptions) : Bool :=
  match opts.format with
  | .SPKAC => decide (opts.challenge ≠ "")
  | .PKCS10 => decide (opts.info ≠ [])

/-- `CertificateRequest`: fields following the header's accessor list;
the signature is abstracted as `signedBy` as for `Certificate`. -/
structure CertificateRequest where
  format : CertificateRequestFormat
  subjectInfo : CertificateInfo
  constraints : List ConstraintType
  policies : List String
  isCA : Bool
  pathLimit : Nat
  subjectPublicKey : KeyId
  challenge : String
  signedBy : KeyId
deriving DecidableEq

/-- Modelled from the spec: the `CertificateRequest(opts, key)`
constructor of §4.2 (implementation outside `src/`) — reject invalid
options with `FormatError`, an unusable key with `SigningError`;
populate fields per format: PKCS10 copies subject info, constraints,
policies, CA flag and path limit from the options, while in SPKAC
format all options except the challenge are ignored, leaving those
fields default/empty. -/
def certificateRequest (opts : CertificateOptions) (key : PrivateKey) :
    Except CertError CertificateRequest :=
  if opts.isValid = false then Except.error CertError.FormatError
  else if key.canSign = false then Except.error CertError.SigningError
  else
    Except.ok <|
      match opts.format with
      | .PKCS10 =>
        { format := .PKCS10, subjectInfo := opts.info, constraints := opts.constraints,
          policies := opts.policies, isCA := opts.isCA, pathLimit := opts.pathLimit,
          subjectPublicKey := key.pubKey, challenge := opts.challenge,
          signedBy := key.pubKey }
      | .SPKAC =>
        { format := .SPKAC, subjectInfo := [], constraints := [],
          policies := [], isCA := false, pathLimit := 0,
          subjectPublicKey := key.pubKey, challenge := opts.challenge,
          signedBy := key.pubKey }

/-- `CertificateAuthority`: bound at construction to one CA certificate
and private key; per §5 its only mutable state is the issuance
counters (serial numbers and CRL numbers). -/
structure CertificateAuthority where
  caCert : Certificate
  caKey : PrivateKey
  serialCounter : Int
  crlCounter : Int
deriving DecidableEq

/-- `CertificateAuthority::certificate`: the CA certificate the
authority was constructed with. -/
def CertificateAuthority.certificate (a : CertificateAuthority) : Certificate :=
  a.caCert

/-- Remove every entry carrying a given serial number. -/
def removeSerial (s : Int) (l : List CRLEntry) : List CRLEntry :=
  l.filter fun e => decide (e.serialNumber ≠ s)

/-- Modelled from the spec: applying one new entry to an entry list —
the new entry replaces any prior entry for its serial number
(last-write-wins on reason/time). -/
def applyEntry (l : List CRLEntry) (e : CRLEntry) : List CRLEntry :=
  removeSerial e.serialNumber l ++ [e]

/-- Modelled from the spec: union of existing entries with new ones,
keyed by serial number, applying the new entries in order. -/
def mergeEntries (old new : List CRLEntry) : List CRLEntry :=
  new.foldl applyEntry old

/-- Modelled from the spec: `CertificateAuthority::signRequest`
(implementation outside `src/`) — a certificate whose issuer info is
the CA certificate's subject info, subject content copied from the
request, validity window `[now, notValidAfter]`, serial number assigned
from the authority's counter, signed with the CA key; the counter is
the authority's only state change. -/
def CertificateAuthority.signRequest (a : CertificateAuthority) (req : CertificateRequest)
    (notValidAfter now : Instant) : Certificate × CertificateAuthority :=
  ({ notValidBefore := now, notValidAfter := notValidAfter,
     subjectInfo := req.subjectInfo, issuerInfo := a.caCert.subjectInfo,
     constraints := req.constraints, policies := req.policies,
     serialNumber := a.serialCounter, subjectPublicKey := req.subjectPublicKey,
     isCA := req.isCA, pathLimit := req.pathLimit, signedBy := a.caKey.pubKey,
     subjectKeyId := none, issuerKeyId := a.caCert.subjectKeyId },
   { a with serialCounter := a.serialCounter + 1 })

/-- Modelled from the spec: `CertificateAuthority::createCertificate`
(implementation outside `src/`) — like `signRequest` but the subject
content comes directly from the options. -/
def CertificateAuthority.createCertificate (a : CertificateAuthority) (key : KeyId)
    (opts : CertificateOptions) : Certificate × CertificateAuthority :=
  ({ notValidBefore := opts.notValidBefore, notValidAfter := opts.notValidAfter,
     subjectInfo := opts.info, issuerInfo := a.caCert.subjectInfo,
     constraints := opts.constraints, policies := opts.policies,
     serialNumber := opts.serialNumber, subjectPublicKey := key,
     isCA := opts.isCA, pathLimit := opts.pathLimit, signedBy := a.caKey.pubKey,
     subjectKeyId := none, issuerKeyId := a.caCert.subjectKeyId },
   a)

/-- Modelled from the spec: `CertificateAuthority::createCRL`
(implementation outside `src/`) — an empty CRL with issuer the CA
subject info, `thisUpdate = now`, the given `nextUpdate`, and the
authority-tracked CRL number, which is then advanced. -/
def CertificateAuthority.createCRL (a : CertificateAuthority)
    (nextUpdate now : Instant) : CRL × CertificateAuthority :=
  ({ issuerInfo := a.caCert.subjectInfo, number := a.crlCounter,
     thisUpdate := now, nextUpdate := nextUpdate, revoked := [],
     signedBy := a.caKey.pubKey, issuerKeyId := a.caCert.subjectKeyId },
   { a with crlCounter := a.crlCounter + 1 })

/-- Modelled from the spec: `CertificateAuthority::updateCRL`
(implementation outside `src/`) — a new CRL whose entries are the
input CRL's entries unioned with the new entries keyed by serial number
(last-write-wins), `thisUpdate = now`, the given `nextUpdate`, number
one more than the input CRL's, re-signed; the input CRL value is not
mutated. -/
def CertificateAuthority.updateCRL (a : CertificateAuthority) (crl : CRL)
    (entries : List CRLEntry) (nextUpdate now : Instant) : CRL × CertificateAuthority :=
  ({ issuerInfo := crl.issuerInfo, number := crl.number + 1,
     thisUpdate := now, nextUpdate := nextUpdate,
     revoked := mergeEntries crl.revoked entries,
     signedBy := a.caKey.pubKey, issuerKeyId := a.caCert.subjectKeyId },
   a)

/-- One issuance call on a `CertificateAuthority` (the four const
operations of the header). -/
inductive CAOp where
  | signRequest (req : CertificateRequest) (notValidAfter now : Instant)
  | createCertificate (key : KeyId) (opts : CertificateOptions)
  | createCRL (nextUpdate now : Instant)
  | updateCRL (crl : CRL) (entries : List CRLEntry) (nextUpdate now : Instant)

/-- The authority state after one issuance call (its emitted
certificate or CRL discarded). -/
def applyOp (a : CertificateAuthority) : CAOp → CertificateAuthority
  | .signRequest req nva now => (a.signRequest req nva now).2
  | .createCertificate key opts => (a.createCertificate key opts).2
  | .createCRL nu now => (a.createCRL nu now).2
  | .updateCRL crl entries nu now => (a.updateCRL crl entries nu now).2

/-- The authority state after a sequence of issuance calls. -/
def runOps (a : CertificateAuthority) (ops : List CAOp) : CertificateAuthority :=
  ops.foldl applyOp a

/-- Look up the (first) entry carrying a serial number. -/
def findSerial (l : List CRLEntry) (s : Int) : Option CRLEntry :=
  l.find? fun e => decide (e.serialNumber = s)

/-- The last entry of a list carrying a serial number (the one a
last-write-wins union keeps). -/
def lastEntry : List CRLEntry → Int → Option CRLEntry
  | [], _ => none
  | e :: rest, s =>
    match lastEntry rest s with
    | some x => some x
    | none => if e.serialNumber = s then some e else none

/-- Serial numbers are pairwise distinct within an entry list. -/
def serialsUnique (l : List CRLEntry) : Prop :=
  (l.map fun e => e.serialNumber).Nodup

instance (l : List CRLEntry) : Decidable (serialsUnique l) := by
  unfold serialsUnique
  infer_instance

@[simp] lemma firstErr_nil : firstErr [] = none := rfl

@[simp] lemma firstErr_cons_none (rest : List (Option Validity)) :
    firstErr (none :: rest) = firstErr rest := rfl

@[simp] lemma firstErr_cons_some (v : Validity) (rest : List (Option Validity)) :
    firstErr (some v :: rest) = some v := rfl

lemma step1_ne_good (cert : Certificate) (pt pu : List Certificate) :
    step1 cert pt pu ≠ some Validity.ValidityGood := by
  unfold step1
  split <;> simp

lemma step2_ne_good (cert : Certificate) (pt : List Certificate) :
    step2 cert pt ≠ some Validity.ValidityGood := by
  unfold step2
  split <;> simp

lemma step3_ne_good (chain : List Certificate) :
    step3 chain ≠ some Validity.ValidityGood := by
  unfold step3
  split <;> simp

lemma step4_ne_good (cert : Certificate) (chain pt : List Certificate) :
    step4 cert chain pt ≠ some Validity.ValidityGood := by
  unfold step4
  split <;> simp

lemma step5_ne_good (chain : List Certificate) :
    step5 chain ≠ some Validity.ValidityGood := by
  unfold step5
  split <;> simp

lemma step6_ne_good (chain : List Certificate) :
    step6 chain ≠ some Validity.ValidityGood := by
  unfold step6
  split <;> simp

lemma step7a_ne_good (now : Instant) (cert : Certificate) :
    step7a now cert ≠ some Validity.ValidityGood := by
  unfold step7a
  split <;> simp

lemma step7b_ne_good (now : Instant) (chain : List Certificate) :
    step7b now chain ≠ some Validity.ValidityGood := by
  unfold step7b
  split <;> simp

lemma step8_ne_good (crls : List CRL) (chain : List Certificate) :
    step8 crls chain ≠ some Validity.ValidityGood := by
  unfold step8
  split <;> simp

lemma step9_ne_good (u : UsageMode) (cert : Certificate) :
    step9 u cert ≠ some Validity.ValidityGood := by
  unfold step9
  split
  · simp
  · split <;> simp

lemma firstErr_getD_good {l : List (Option Validity)}
    (hne : ∀ v, some v ∈ l → v ≠ Validity.ValidityGood)
    (h : (firstErr l).getD Validity.ValidityGood = Validity.ValidityGood) :
    ∀ x ∈ l, x = none := by
  induction l with
  | nil => simp
  | cons a rest ih =>
    cases a with
    | none =>
      intro x hx
      rcases List.mem_cons.mp hx with rfl | hx
      · rfl
      · exact ih (fun v hv => hne v (List.mem_cons_of_mem _ hv))
          (by simpa [firstErr] using h) x hx
    | some v =>
      exact absurd (by simpa [firstErr] using h) (hne v (List.mem_cons_self _ _))

lemma validate_good_all_none (cert : Certificate) (trusted untrusted : CertificateCollection)
    (u : UsageMode) (now : Instant)
    (h : Certificate.validate cert trusted untrusted u now = Validity.ValidityGood) :
    ∀ x ∈ stepsOf cert trusted untrusted u now, x = none := by
  simp only [Certificate.validate] at h
  refine firstErr_getD_good ?_ h
  intro v hv hgood
  subst hgood
  simp only [stepsOf, List.mem_cons, List.not_mem_nil, or_false] at hv
  rcases hv with h' | h' | h' | h' | h' | h' | h' | h' | h' | h'
  · exact step1_ne_good _ _ _ h'.symm
  · exact step2_ne_good _ _ h'.symm
  · exact step3_ne_good _ h'.symm
  · exact step4_ne_good _ _ _ h'.symm
  · exact step5_ne_good _ h'.symm
  · exact step6_ne_good _ h'.symm
  · exact step7a_ne_good _ _ h'.symm
  · exact step7b_ne_good _ _ h'.symm
  · exact step8_ne_good _ _ h'.symm
  · exact step9_ne_good _ _ h'.symm

lemma buildChain_cons (pt pu : List Certificate) (fuel : Nat) (c : Certificate) :
    ∃ rest, buildChain pt pu fuel c = c :: rest := by
  cases fuel with
  | zero => exact ⟨[], rfl⟩
  | succ n =>
    by_cases h : SelfSigned c
    · exact ⟨[], by simp [buildChain, h]⟩
    · cases hp : pickIssuer pt pu c with
      | none => exact ⟨[], by simp [buildChain, h, hp]⟩
      | some p => exact ⟨buildChain pt pu n p, by simp [buildChain, h, hp]⟩

lemma chainOf_cons (trusted untrusted : CertificateCollection) (cert : Certificate) :
    ∃ rest, chainOf trusted untrusted cert = cert :: rest := by
  unfold chainOf
  exact buildChain_cons _ _ _ _

lemma mem_chain_cases {trusted untrusted : CertificateCollection} {cert c : Certificate}
    (hc : c ∈ chainOf trusted untrusted cert) :
    c = cert ∨ c ∈ (chainOf trusted untrusted cert).tail := by
  obtain ⟨rest, hr⟩ := chainOf_cons trusted untrusted cert
  rw [hr] at hc ⊢
  simpa using hc

lemma step1_none_of_selfSigned {cert : Certificate} (pt pu : List Certificate)
    (h : SelfSigned cert) : step1 cert pt pu = none := by
  unfold step1
  rw [if_neg]
  rintro ⟨hns, -⟩
  exact hns h

lemma step4_none {cert : Certificate} {chain pt : List Certificate}
    (h : step4 cert chain pt = none) : chain.getLastD cert ∈ pt := by
  unfold step4 at h
  split at h
  next hc => exact hc
  next hc => simp at h

lemma step7a_none {now : Instant} {cert : Certificate}
    (h : step7a now cert = none) : InWindow now cert := by
  unfold step7a at h
  split at h
  next hc => exact hc
  next hc => simp at h

lemma step7b_none {now : Instant} {chain : List Certificate}
    (h : step7b now chain = none) : ∀ c ∈ chain.tail, InWindow now c := by
  unfold step7b at h
  split at h
  next hc => exact hc
  next hc => simp at h

lemma step7a_expired {now : Instant} {cert : Certificate} (h : ¬ InWindow now cert) :
    step7a now cert = some Validity.ErrorExpired := by
  unfold step7a
  rw [if_neg h]

lemma step7a_inWindow {now : Instant} {cert : Certificate} (h : InWindow now cert) :
    step7a now cert = none := by
  unfold step7a
  rw [if_pos h]

lemma step7b_expiredCA {now : Instant} {chain : List Certificate} {c : Certificate}
    (hc : c ∈ chain.tail) (h : ¬ InWindow now c) :
    step7b now chain = some Validity.ErrorExpiredCA := by
  unfold step7b
  rw [if_neg]
  intro hall
  exact h (hall c hc)

/-- Claim C1: a certificate of the built chain whose validity window
does not contain the validation instant rules out `ValidityGood`
whatever the collections hold; and once the checks that precede the
window check (chain construction, self-signed detection, signature
chain, trust anchor, CA flags, path length) report no error, an
out-of-window leaf yields `ErrorExpired` while an out-of-window
ancestor (CA) yields `ErrorExpiredCA`. -/
theorem validate_out_of_window (trusted untrusted : CertificateCollection)
    (u : UsageMode) (now : Instant) (cert c : Certificate)
    (hc : c ∈ chainOf trusted untrusted cert) (hw : ¬ InWindow now c) :
    Certificate.validate cert trusted untrusted u now ≠ Validity.ValidityGood ∧
      (step1 cert trusted.certs untrusted.certs = none →
        step2 cert trusted.certs = none →
        step3 (chainOf trusted untrusted cert) = none →
        step4 cert (chainOf trusted untrusted cert) trusted.certs = none →
        step5 (chainOf trusted untrusted cert) = none →
        step6 (chainOf trusted untrusted cert) = none →
        (c = cert →
          Certificate.validate cert trusted untrusted u now = Validity.ErrorExpired) ∧
          (c ∈ (chainOf trusted untrusted cert).tail → InWindow now cert →
            Certificate.validate cert trusted untrusted u now = Validity.ErrorExpiredCA)) := by
  constructor
  · intro hgood
    have hall := validate_good_all_none cert trusted untrusted u now hgood
    have h7a := step7a_none (hall (step7a now cert) (by simp [stepsOf]))
    have h7b := step7b_none
      (hall (step7b now (chainOf trusted untrusted cert)) (by simp [stepsOf]))
    rcases mem_chain_cases hc with rfl | htail
    · exact hw h7a
    · exact hw (h7b c htail)
  · intro h1 h2 h3 h4 h5 h6
    constructor
    · intro hceq
      subst hceq
      have h7a := step7a_expired hw
      simp [Certificate.validate, stepsOf, h1, h2, h3, h4, h5, h6, h7a]
    · intro htail hwl
      have h7a := step7a_inWindow hwl
      have h7b := step7b_expiredCA htail hw
      simp [Certificate.validate, stepsOf, h1, h2, h3, h4, h5, h6, h7a, h7b]

/-- Claim C2: when the top-most certificate the chain builder reaches is
not present in the trusted collection, `ValidityGood` is ruled out; and
once the checks that precede the trust-anchor check report no error the
verdict is `ErrorUntrusted`. -/
theorem validate_untrusted_top (trusted untrusted : CertificateCollection)
    (u : UsageMode) (now : Instant) (cert : Certificate)
    (htop : (chainOf trusted untrusted cert).getLastD cert ∉ trusted.certs) :
    Certificate.validate cert trusted untrusted u now ≠ Validity.ValidityGood ∧
      (step1 cert trusted.certs untrusted.certs = none →
        step2 cert trusted.certs = none →
        step3 (chainOf trusted untrusted cert) = none →
        Certificate.validate cert trusted untrusted u now = Validity.ErrorUntrusted) := by
  have h4 : step4 cert (chainOf trusted untrusted cert) trusted.certs =
      some Validity.ErrorUntrusted := by
    unfold step4
    rw [if_neg htop]
  constructor
  · intro hgood
    have hall := validate_good_all_none cert trusted untrusted u now hgood
    have := hall (step4 cert (chainOf trusted untrusted cert) trusted.certs)
      (by simp [stepsOf])
    rw [h4] at this
    cases this
  · intro h1 h2 h3
    simp [Certificate.validate, stepsOf, h1, h2, h3, h4]

/-- Claim C5: a self-signed certificate (issuer info equals subject
info, signature verifies against its own key) that is not present in
the trusted collection validates to `ErrorSelfSigned`. -/
theorem validate_self_signed (trusted untrusted : CertificateCollection)
    (u : UsageMode) (now : Instant) (cert : Certificate)
    (hss : SelfSigned cert) (hnt : cert ∉ trusted.certs) :
    Certificate.validate cert trusted untrusted u now = Validity.ErrorSelfSigned := by
  have h1 := step1_none_of_selfSigned trusted.certs untrusted.certs hss
  have h2 : step2 cert trusted.certs = some Validity.ErrorSelfSigned := by
    unfold step2
    rw [if_pos ⟨hss, hnt⟩]
  simp [Certificate.validate, stepsOf, h1, h2]

/-- Subject info used by the concrete root CA below. -/
def infoRoot : CertificateInfo := [(CertificateInfoType.CommonName, "Root CA")]

/-- Subject info used by the concrete intermediate CA below. -/
def infoInter : CertificateInfo := [(CertificateInfoType.CommonName, "Inter CA")]

/-- Subject info used by the concrete leaf certificates below. -/
def infoLeaf : CertificateInfo := [(CertificateInfoType.CommonName, "Leaf")]

/-- A concrete self-signed root CA (key 1), valid on [0, 100]. -/
def root0 : Certificate :=
  { notValidBefore := 0, notValidAfter := 100, subjectInfo := infoRoot,
    issuerInfo := infoRoot, constraints := [], policies := [], serialNumber := 1,
    subjectPublicKey := 1, isCA := true, pathLimit := 8, signedBy := 1,
    subjectKeyId := none, issuerKeyId := none }

/-- A concrete leaf (key 2) signed by `root0`, valid on [0, 100]. -/
def leaf0 : Certificate :=
  { notValidBefore := 0, notValidAfter := 100, subjectInfo := infoLeaf,
    issuerInfo := infoRoot, constraints := [], policies := [], serialNumber := 2,
    subjectPublicKey := 2, isCA := false, pathLimit := 0, signedBy := 1,
    subjectKeyId := none, issuerKeyId := none }

/-- A concrete leaf signed by `root0` but valid only on [0, 10]. -/
def leafExpired : Certificate :=
  { leaf0 with notValidBefore := 0, notValidAfter := 10, serialNumber := 3 }

/-- Trust store holding exactly `root0`. -/
def trusted0 : CertificateCollection := { certs := [root0], crls := [] }

/-- The empty collection. -/
def empty0 : CertificateCollection := { certs := [], crls := [] }

theorem validate_out_of_window_witness :
    leafExpired ∈ chainOf trusted0 empty0 leafExpired ∧
      ¬ InWindow 50 leafExpired ∧
      Certificate.validate leafExpired trusted0 empty0 UsageMode.UsageAny 50 ≠
        Validity.ValidityGood ∧
      Certificate.validate leafExpired trusted0 empty0 UsageMode.UsageAny 50 =
        Validity.ErrorExpired :=
  ⟨by decide, by decide,
    (validate_out_of_window trusted0 empty0 UsageMode.UsageAny 50 leafExpired leafExpired
      (by decide) (by decide)).1,
    ((validate_out_of_window trusted0 empty0 UsageMode.UsageAny 50 leafExpired leafExpired
      (by decide) (by decide)).2 (by decide) (by decide) (by decide) (by decide)
      (by decide) (by decide)).1 rfl⟩

/-- A concrete self-signed CA (key 3) that no trust store below holds. -/
def caX : Certificate :=
  { notValidBefore := 0, notValidAfter := 100,
    subjectInfo := [(CertificateInfoType.CommonName, "CA X")],
    issuerInfo := [(CertificateInfoType.CommonName, "CA X")], constraints := [],
    policies := [], serialNumber := 4, subjectPublicKey := 3, isCA := true,
    pathLimit := 8, signedBy := 3, subjectKeyId := none, issuerKeyId := none }

/-- A concrete leaf (key 6) signed by `caX`. -/
def leafX : Certificate :=
  { notValidBefore := 0, notValidAfter := 100, subjectInfo := infoLeaf,
    issuerInfo := [(CertificateInfoType.CommonName, "CA X")], constraints := [],
    policies := [], serialNumber := 5, subjectPublicKey := 6, isCA := false,
    pathLimit := 0, signedBy := 3, subjectKeyId := none, issuerKeyId := none }

/-- Untrusted pool holding `caX`. -/
def untrustedX : CertificateCollection := { certs := [caX], crls := [] }

theorem validate_untrusted_top_witness :
    (chainOf trusted0 untrustedX leafX).getLastD leafX ∉ trusted0.certs ∧
      Certificate.validate leafX trusted0 untrustedX UsageMode.UsageAny 50 ≠
        Validity.ValidityGood ∧
      Certificate.validate leafX trusted0 untrustedX UsageMode.UsageAny 50 =
        Validity.ErrorUntrusted :=
  ⟨by decide,
    (validate_untrusted_top trusted0 untrustedX UsageMode.UsageAny 50 leafX (by decide)).1,
    (validate_untrusted_top trusted0 untrustedX UsageMode.UsageAny 50 leafX
      (by decide)).2 (by decide) (by decide) (by decide)⟩

/-- A concrete self-signed certificate (key 7) kept out of every trust
store below. -/
def ssCert : Certificate :=
  { notValidBefore := 0, notValidAfter := 100,
    subjectInfo := [(CertificateInfoType.CommonName, "Self")],
    issuerInfo := [(CertificateInfoType.CommonName, "Self")], constraints := [],
    policies := [], serialNumber := 7, subjectPublicKey := 7, isCA := false,
    pathLimit := 0, signedBy := 7, subjectKeyId := none, issuerKeyId := none }

theorem validate_self_signed_witness :
    SelfSigned ssCert ∧ ssCert ∉ trusted0.certs ∧
      Certificate.validate ssCert trusted0 empty0 UsageMode.UsageAny 50 =
        Validity.ErrorSelfSigned :=
  ⟨by decide, by decide,
    validate_self_signed trusted0 empty0 UsageMode.UsageAny 50 ssCert
      (by decide) (by decide)⟩

/-- Claim C3: once every check that precedes the revocation check
(chain construction, self-signed detection, signature chain, trust
anchor, CA flags, path length, both validity-window checks) reports no
error, a CRL of the supplied collections whose issuer matches a chain
certificate and which lists the serial number of a chain certificate
forces the verdict `ErrorRevoked`. -/
theorem validate_revoked (trusted untrusted : CertificateCollection)
    (u : UsageMode) (now : Instant) (cert : Certificate)
    (h1 : step1 cert trusted.certs untrusted.certs = none)
    (h2 : step2 cert trusted.certs = none)
    (h3 : step3 (chainOf trusted untrusted cert) = none)
    (h4 : step4 cert (chainOf trusted untrusted cert) trusted.certs = none)
    (h5 : step5 (chainOf trusted untrusted cert) = none)
    (h6 : step6 (chainOf trusted untrusted cert) = none)
    (h7a : step7a now cert = none)
    (h7b : step7b now (chainOf trusted untrusted cert) = none)
    (hrev : Revokes (trusted.crls ++ untrusted.crls) (chainOf trusted untrusted cert)) :
    Certificate.validate cert trusted untrusted u now = Validity.ErrorRevoked := by
  have h8 : step8 (trusted.crls ++ untrusted.crls) (chainOf trusted untrusted cert) =
      some Validity.ErrorRevoked := by
    unfold step8
    rw [if_pos hrev]
  simp [Certificate.validate, stepsOf, h1, h2, h3, h4, h5, h6, h7a, h7b, h8]

/-- A concrete CRL issued by `root0` revoking `leaf0`'s serial number. -/
def crlRoot : CRL :=
  { issuerInfo := infoRoot, number := 1, thisUpdate := 0, nextUpdate := 100,
    revoked := [{ serialNumber := 2, time := 5, reason := Reason.KeyCompromise }],
    signedBy := 1, issuerKeyId := none }

/-- Untrusted collection carrying only `crlRoot`. -/
def untrustedCrl : CertificateCollection := { certs := [], crls := [crlRoot] }

theorem validate_revoked_witness :
    Revokes (trusted0.crls ++ untrustedCrl.crls) (chainOf trusted0 untrustedCrl leaf0) ∧
      Certificate.validate leaf0 trusted0 untrustedCrl UsageMode.UsageAny 50 =
        Validity.ErrorRevoked :=
  ⟨by decide,
    validate_revoked trusted0 untrustedCrl UsageMode.UsageAny 50 leaf0
      (by decide) (by decide) (by decide) (by decide) (by decide) (by decide)
      (by decide) (by decide) (by decide)⟩

/-- Claim C4: once the checks that precede the path-length check report
no error, a chain in which the CA at position `i + 1` (counting from
the leaf) declares a `pathLimit` smaller than the `i` intermediate CAs
below it forces the verdict `ErrorPathLengthExceeded`. -/
theorem validate_path_length (trusted untrusted : CertificateCollection)
    (u : UsageMode) (now : Instant) (cert : Certificate)
    (h1 : step1 cert trusted.certs untrusted.certs = none)
    (h2 : step2 cert trusted.certs = none)
    (h3 : step3 (chainOf trusted untrusted cert) = none)
    (h4 : step4 cert (chainOf trusted untrusted cert) trusted.certs = none)
    (h5 : step5 (chainOf trusted untrusted cert) = none)
    (hviol : ∃ i, i < (chainOf trusted untrusted cert).tail.length ∧
      ((chainOf trusted untrusted cert).tail.getD i cert).pathLimit < i) :
    Certificate.validate cert trusted untrusted u now =
      Validity.ErrorPathLengthExceeded := by
  have hnot : ¬ PathLenOk (chainOf trusted untrusted cert) := by
    intro hok
    obtain ⟨i, hi, hlt⟩ := hviol
    have hle := hok i hi
    have hlt' : ((chainOf trusted untrusted cert).tail.get ⟨i, hi⟩).pathLimit < i := by
      simpa [List.getD_eq_getElem?_getD, List.getElem?_eq_getElem hi, List.get_eq_getElem]
        using hlt
    omega
  have h6 : step6 (chainOf trusted untrusted cert) =
      some Validity.ErrorPathLengthExceeded := by
    unfold step6
    rw [if_neg hnot]
  simp [Certificate.validate, stepsOf, h1, h2, h3, h4, h5, h6]

/-- A concrete self-signed root CA (key 1) declaring `pathLimit = 0`. -/
def rootP : Certificate :=
  { root0 with pathLimit := 0 }

/-- A concrete intermediate CA (key 4) signed by `rootP`. -/
def interP : Certificate :=
  { notValidBefore := 0, notValidAfter := 100, subjectInfo := infoInter,
    issuerInfo := infoRoot, constraints := [], policies := [], serialNumber := 8,
    subjectPublicKey := 4, isCA := true, pathLimit := 0, signedBy := 1,
    subjectKeyId := none, issuerKeyId := none }

/-- A concrete leaf (key 5) signed by `interP`. -/
def leafP : Certificate :=
  { notValidBefore := 0, notValidAfter := 100, subjectInfo := infoLeaf,
    issuerInfo := infoInter, constraints := [], policies := [], serialNumber := 9,
    subjectPublicKey := 5, isCA := false, pathLimit := 0, signedBy := 4,
    subjectKeyId := none, issuerKeyId := none }

/-- Trust store holding exactly `rootP`. -/
def trustedP : CertificateCollection := { certs := [rootP], crls := [] }

/-- Untrusted pool holding `interP`. -/
def untrustedP : CertificateCollection := { certs := [interP], crls := [] }

theorem validate_path_length_witness :
    (∃ i, i < (chainOf trustedP untrustedP leafP).tail.length ∧
      ((chainOf trustedP untrustedP leafP).tail.getD i leafP).pathLimit < i) ∧
      Certificate.validate leafP trustedP untrustedP UsageMode.UsageAny 50 =
        Validity.ErrorPathLengthExceeded :=
  ⟨⟨1, by decide, by decide⟩,
    validate_path_length trustedP untrustedP UsageMode.UsageAny 50 leafP
      (by decide) (by decide) (by decide) (by decide) (by decide)
      ⟨1, by decide, by decide⟩⟩

lemma findSerial_cons_pos {e : CRLEntry} {s : Int} (l : List CRLEntry)
    (h : e.serialNumber = s) : findSerial (e :: l) s = some e := by
  unfold findSerial
  rw [List.find?_cons_of_pos]
  simp [h]

lemma findSerial_cons_neg {e : CRLEntry} {s : Int} (l : List CRLEntry)
    (h : ¬ e.serialNumber = s) : findSerial (e :: l) s = findSerial l s := by
  unfold findSerial
  rw [List.find?_cons_of_neg]
  simp [h]

lemma removeSerial_cons_pos {t : Int} {e : CRLEntry} (l : List CRLEntry)
    (h : e.serialNumber = t) : removeSerial t (e :: l) = removeSerial t l := by
  simp [removeSerial, List.filter_cons, h]

lemma removeSerial_cons_neg {t : Int} {e : CRLEntry} (l : List CRLEntry)
    (h : ¬ e.serialNumber = t) : removeSerial t (e :: l) = e :: removeSerial t l := by
  simp [removeSerial, List.filter_cons, h]

lemma findSerial_removeSerial_self (s : Int) (l : List CRLEntry) :
    findSerial (removeSerial s l) s = none := by
  induction l with
  | nil => rfl
  | cons e rest ih =>
    by_cases he : e.serialNumber = s
    · rw [removeSerial_cons_pos rest he]
      exact ih
    · rw [removeSerial_cons_neg rest he, findSerial_cons_neg _ he]
      exact ih

lemma findSerial_removeSerial {t s : Int} (h : t ≠ s) (l : List CRLEntry) :
    findSerial (removeSerial t l) s = findSerial l s := by
  induction l with
  | nil => rfl
  | cons e rest ih =>
    by_cases he : e.serialNumber = t
    · have hs : ¬ e.serialNumber = s := by
        rw [he]
        exact h
      rw [removeSerial_cons_pos rest he, findSerial_cons_neg rest hs]
      exact ih
    · by_cases hs : e.serialNumber = s
      · rw [removeSerial_cons_neg rest he, findSerial_cons_pos _ hs,
          findSerial_cons_pos rest hs]
      · rw [removeSerial_cons_neg rest he, findSerial_cons_neg _ hs,
          findSerial_cons_neg rest hs]
        exact ih

lemma findSerial_append_left {l1 : List CRLEntry} {s : Int} {e : CRLEntry}
    (l2 : List CRLEntry) (h : findSerial l1 s = some e) :
    findSerial (l1 ++ l2) s = some e := by
  induction l1 with
  | nil => cases h
  | cons x rest ih =>
    by_cases hx : x.serialNumber = s
    · rw [findSerial_cons_pos rest hx] at h
      rw [List.cons_append, findSerial_cons_pos _ hx]
      exact h
    · rw [findSerial_cons_neg rest hx] at h
      rw [List.cons_append, findSerial_cons_neg _ hx]
      exact ih h

lemma findSerial_append_right {l1 : List CRLEntry} {s : Int}
    (l2 : List CRLEntry) (h : findSerial l1 s = none) :
    findSerial (l1 ++ l2) s = findSerial l2 s := by
  induction l1 with
  | nil => rfl
  | cons x rest ih =>
    by_cases hx : x.serialNumber = s
    · rw [findSerial_cons_pos rest hx] at h
      cases h
    · rw [findSerial_cons_neg rest hx] at h
      rw [List.cons_append, findSerial_cons_neg _ hx]
      exact ih h

lemma findSerial_applyEntry (l : List CRLEntry) (e : CRLEntry) (s : Int) :
    findSerial (applyEntry l e) s =
      if e.serialNumber = s then some e else findSerial l s := by
  unfold applyEntry
  by_cases hes : e.serialNumber = s
  · rw [if_pos hes]
    rw [findSerial_append_right _ (by rw [hes]; exact findSerial_removeSerial_self s l)]
    exact findSerial_cons_pos [] hes
  · rw [if_neg hes]
    cases hfs : findSerial l s with
    | none =>
      rw [findSerial_append_right _ (by rw [findSerial_removeSerial hes l]; exact hfs)]
      rw [findSerial_cons_neg [] hes]
      rfl
    | some x =>
      exact findSerial_append_left _ (by rw [findSerial_removeSerial hes l]; exact hfs)

lemma mergeEntries_cons (old : List CRLEntry) (e : CRLEntry) (rest : List CRLEntry) :
    mergeEntries old (e :: rest) = mergeEntries (applyEntry old e) rest := rfl

lemma findSerial_mergeEntries (new : List CRLEntry) :
    ∀ (old : List CRLEntry) (s : Int),
      findSerial (mergeEntries old new) s =
        match lastEntry new s with
        | some x => some x
        | none => findSerial old s := by
  induction new with
  | nil => intro old s; rfl
  | cons e rest ih =>
    intro old s
    rw [mergeEntries_cons, ih]
    cases hl : lastEntry rest s with
    | some x => simp [lastEntry, hl]
    | none =>
      rw [findSerial_applyEntry]
      by_cases hes : e.serialNumber = s
      · simp [lastEntry, hl, hes]
      · simp [lastEntry, hl, hes]

lemma serialsUnique_applyEntry (l : List CRLEntry) (e : CRLEntry)
    (h : serialsUnique l) : serialsUnique (applyEntry l e) := by
  unfold serialsUnique applyEntry removeSerial at *
  rw [List.map_append, List.nodup_append]
  refine ⟨h.sublist ((List.filter_sublist l).map _), by simp, ?_⟩
  intro x hx
  simp only [List.mem_map, List.mem_filter, decide_eq_true_eq] at hx
  obtain ⟨y, ⟨-, hy⟩, rfl⟩ := hx
  simp [hy]

lemma serialsUnique_mergeEntries (new : List CRLEntry) :
    ∀ old : List CRLEntry, serialsUnique old → serialsUnique (mergeEntries old new) := by
  induction new with
  | nil => intro old h; exact h
  | cons e rest ih =>
    intro old h
    rw [mergeEntries_cons]
    exact ih _ (serialsUnique_applyEntry old e h)

/-- Claim C6: `updateCRL(crl, entries, nextUpdate)` builds a new CRL
whose entry list is the old entries unioned with the new ones keyed by
serial number — each serial keeps exactly one entry, the most recently
applied new entry winning over any prior entry — whose number is the
input CRL's number plus one, with the requested update schedule, while
the input `crl` and the authority value are left untouched (the
operation is a pure function of its arguments). -/
theorem updateCRL_spec (a : CertificateAuthority) (crl : CRL) (entries : List CRLEntry)
    (nextUpdate now : Instant) (h : serialsUnique crl.revoked) :
    (a.updateCRL crl entries nextUpdate now).1.number = crl.number + 1 ∧
      (a.updateCRL crl entries nextUpdate now).1.thisUpdate = now ∧
      (a.updateCRL crl entries nextUpdate now).1.nextUpdate = nextUpdate ∧
      serialsUnique (a.updateCRL crl entries nextUpdate now).1.revoked ∧
      (∀ s : Int,
        findSerial (a.updateCRL crl entries nextUpdate now).1.revoked s =
          match lastEntry entries s with
          | some e => some e
          | none => findSerial crl.revoked s) ∧
      (a.updateCRL crl entries nextUpdate now).2 = a := by
  refine ⟨rfl, rfl, rfl, ?_, ?_, rfl⟩
  · exact serialsUnique_mergeEntries entries crl.revoked h
  · intro s
    exact findSerial_mergeEntries entries crl.revoked s

/-- A concrete certificate authority bound to `root0` and its key. -/
def authority0 : CertificateAuthority :=
  { caCert := root0, caKey := { pubKey := 1, canSign := true },
    serialCounter := 1, crlCounter := 1 }

/-- New revocation entries overlapping `crlRoot`'s serial 2 with a
different reason. -/
def entries0 : List CRLEntry :=
  [{ serialNumber := 3, time := 6, reason := Reason.Unspecified },
   { serialNumber := 2, time := 7, reason := Reason.Superceded }]

theorem updateCRL_spec_witness :
    serialsUnique crlRoot.revoked ∧
      ((authority0.updateCRL crlRoot entries0 20 10).1.number = crlRoot.number + 1 ∧
        (authority0.updateCRL crlRoot entries0 20 10).1.thisUpdate = 10 ∧
        (authority0.updateCRL crlRoot entries0 20 10).1.nextUpdate = 20 ∧
        serialsUnique (authority0.updateCRL crlRoot entries0 20 10).1.revoked ∧
        (∀ s : Int,
          findSerial (authority0.updateCRL crlRoot entries0 20 10).1.revoked s =
            match lastEntry entries0 s with
            | some e => some e
            | none => findSerial crlRoot.revoked s) ∧
        (authority0.updateCRL crlRoot entries0 20 10).2 = authority0) :=
  ⟨by decide, updateCRL_spec authority0 crlRoot entries0 20 10 (by decide)⟩

/-- Claim C7: collection union is associative (on the nose) and
commutative with respect to membership — `A + B` and `B + A` hold
identical certificate multisets and identical CRL multisets. -/
theorem collection_append_assoc_comm (A B C : CertificateCollection) :
    (A.append B).append C = A.append (B.append C) ∧
      ((A.append B).certs : Multiset Certificate) =
        ((B.append A).certs : Multiset Certificate) ∧
      ((A.append B).crls : Multiset CRL) = ((B.append A).crls : Multiset CRL) := by
  refine ⟨?_, ?_, ?_⟩
  · simp [CertificateCollection.append]
  · show ((A.certs ++ B.certs : List Certificate) : Multiset Certificate) = _
    simp [CertificateCollection.append]
    exact List.perm_append_comm
  · show ((A.crls ++ B.crls : List CRL) : Multiset CRL) = _
    simp [CertificateCollection.append]
    exact List.perm_append_comm

/-- Claim C8: for a certificate whose reference names are exactly the
DNS subject-alternative-name `*.example.com` (no common name),
`matchesHostname` accepts `mail.example.com`, accepts it in any letter
case, and rejects both `a.b.example.com` (two labels under the
wildcard) and `example.com` (no label under the wildcard). -/
theorem matchesHostname_wildcard (c : Certificate)
    (hcn : infoValues c.subjectInfo CertificateInfoType.CommonName = [])
    (hdns : infoValues c.subjectInfo CertificateInfoType.DNS = ["*.example.com"]) :
    c.matchesHostname "mail.example.com" = true ∧
      c.matchesHostname "MAIL.Example.Com" = true ∧
      c.matchesHostname "a.b.example.com" = false ∧
      c.matchesHostname "example.com" = false := by
  unfold Certificate.matchesHostname
  rw [hcn, hdns]
  refine ⟨?_, ?_, ?_, ?_⟩ <;> decide

/-- A concrete certificate carrying only the DNS name `*.example.com`. -/
def wildcardCert : Certificate :=
  { notValidBefore := 0, notValidAfter := 100,
    subjectInfo := [(CertificateInfoType.DNS, "*.example.com")],
    issuerInfo := infoRoot, constraints := [], policies := [], serialNumber := 11,
    subjectPublicKey := 8, isCA := false, pathLimit := 0, signedBy := 1,
    subjectKeyId := none, issuerKeyId := none }

theorem matchesHostname_wildcard_witness :
    infoValues wildcardCert.subjectInfo CertificateInfoType.CommonName = [] ∧
      infoValues wildcardCert.subjectInfo CertificateInfoType.DNS = ["*.example.com"] ∧
      (wildcardCert.matchesHostname "mail.example.com" = true ∧
        wildcardCert.matchesHostname "MAIL.Example.Com" = true ∧
        wildcardCert.matchesHostname "a.b.example.com" = false ∧
        wildcardCert.matchesHostname "example.com" = false) :=
  ⟨by decide, by decide, matchesHostname_wildcard wildcardCert (by decide) (by decide)⟩

/-- Claim C9: a successfully constructed SPKAC certificate request
leaves every PKCS10-only field at its default/empty value — accessing
them is total and error-free — while the challenge and the subject
public key carry the SPKAC content. -/
theorem spkac_request_defaults (opts : CertificateOptions) (key : PrivateKey)
    (req : CertificateRequest) (hf : opts.format = CertificateRequestFormat.SPKAC)
    (hok : certificateRequest opts key = Except.ok req) :
    req.format = CertificateRequestFormat.SPKAC ∧ req.subjectInfo = [] ∧
      req.constraints = [] ∧ req.policies = [] ∧ req.isCA = false ∧
      req.pathLimit = 0 ∧ req.challenge = opts.challenge ∧
      req.subjectPublicKey = key.pubKey := by
  unfold certificateRequest at hok
  split at hok
  · simp at hok
  · split at hok
    · simp at hok
    · split at hok
      next hfmt =>
        rw [hf] at hfmt
        simp at hfmt
      next hfmt =>
        injection hok with h
        subst h
        exact ⟨rfl, rfl, rfl, rfl, rfl, rfl, rfl, rfl⟩

/-- Concrete SPKAC options whose PKCS10-only fields are deliberately
populated (they must all be ignored). -/
def spkacOpts : CertificateOptions :=
  { format := CertificateRequestFormat.SPKAC, challenge := "chal",
    info := [(CertificateInfoType.CommonName, "Ignored")],
    constraints := [ConstraintType.ServerAuth], policies := ["1.2.3"],
    isCA := true, pathLimit := 3, serialNumber := 9,
    notValidBefore := 0, notValidAfter := 1 }

/-- A concrete usable private key (public counterpart 4). -/
def key0 : PrivateKey := { pubKey := 4, canSign := true }

/-- The request `certificateRequest spkacOpts key0` produces. -/
def spkacReq : CertificateRequest :=
  { format := CertificateRequestFormat.SPKAC, subjectInfo := [], constraints := [],
    policies := [], isCA := false, pathLimit := 0, subjectPublicKey := 4,
    challenge := "chal", signedBy := 4 }

theorem spkac_request_defaults_witness :
    spkacOpts.format = CertificateRequestFormat.SPKAC ∧
      certificateRequest spkacOpts key0 = Except.ok spkacReq ∧
      (spkacReq.format = CertificateRequestFormat.SPKAC ∧ spkacReq.subjectInfo = [] ∧
        spkacReq.constraints = [] ∧ spkacReq.policies = [] ∧ spkacReq.isCA = false ∧
        spkacReq.pathLimit = 0 ∧ spkacReq.challenge = spkacOpts.challenge ∧
        spkacReq.subjectPublicKey = key0.pubKey) :=
  ⟨rfl, rfl, spkac_request_defaults spkacOpts key0 spkacReq rfl rfl⟩

lemma applyOp_caCert (a : CertificateAuthority) (op : CAOp) :
    (applyOp a op).caCert = a.caCert := by
  cases op <;> rfl

/-- Claim C10: the issuance operations of a `CertificateAuthority`
(`signRequest`, `createCertificate`, `createCRL`, `updateCRL`) leave
the authority's observable identity unchanged — after any sequence of
such calls, `certificate()` still returns the certificate the authority
was constructed with (only the internal issuance counters may move). -/
theorem authority_ops_preserve_certificate (a : CertificateAuthority) (ops : List CAOp) :
    (runOps a ops).certificate = a.certificate := by
  unfold runOps
  induction ops generalizing a with
  | nil => rfl
  | cons op rest ih =>
    rw [List.foldl_cons, ih (applyOp a op)]
    show (applyOp a op).caCert = a.caCert
    exact applyOp_caCert a op

end QCA
